import Mathlib

/-!
Verification of the inventory-management backend, centred on
src/backend/src/services/productService.ts.

The service stores Product documents in a keyed document store (Firestore).
A document is a finite sequence of (field name, value) pairs with distinct
keys, in insertion order, exactly as a JavaScript object; JavaScript numbers
are modelled as rationals so that the Number.isInteger test is expressible.
Every service function takes the store explicitly and returns the result
together with the store after the call; the Firestore transactions in
increaseStock and decreaseStock are serialized per key by the engine, so a
whole transaction body is one atomic step here, and a thrown error aborts
the transaction with no write committed, which the model renders by
returning the store unchanged on every error path.

All claims use the default collection, so the store models the single
collection named products; the collectionName parameter of the source is
dropped.
-/

set_option maxHeartbeats 1000000

namespace Inventory

/-- A JavaScript value as stored in a Firestore document field. -/
inductive JsVal where
  | num (q : ℚ)
  | str (s : String)
  | nullV
  deriving DecidableEq

/-- A document: field names to values, in insertion order, keys distinct. -/
abbrev Doc := List (String × JsVal)

/-- Read a field of a document (first occurrence of the key). -/
def getField : Doc → String → Option JsVal
  | [], _ => none
  | (k', v) :: rest, k => if k' = k then some v else getField rest k

/-- Write a field: replace the value in place when the key exists
(JavaScript keeps the original property position), append otherwise. -/
def setField : Doc → String → JsVal → Doc
  | [], k, v => [(k, v)]
  | (k', v') :: rest, k, v =>
    if k' = k then (k, v) :: rest else (k', v') :: setField rest k v

/-- Apply a sequence of field writes in order (later writes win). -/
def setFields (d : Doc) (changes : List (String × JsVal)) : Doc :=
  changes.foldl (fun dd kv => setField dd kv.1 kv.2) d

/-- The products collection: document ids to documents. -/
abbrev Store := List (String × Doc)

/-- Look up the document stored under an id. -/
def lookupStore : Store → String → Option Doc
  | [], _ => none
  | (k', d) :: rest, k => if k' = k then some d else lookupStore rest k

/-- Store a document under an id, replacing any existing one. -/
def setStore : Store → String → Doc → Store
  | [], k, d => [(k, d)]
  | (k', d') :: rest, k, d =>
    if k' = k then (k, d) :: rest else (k', d') :: setStore rest k d

/-- Remove the document stored under an id. -/
def removeStore : Store → String → Store
  | [], _ => []
  | (k', d') :: rest, k =>
    if k' = k then rest else (k', d') :: removeStore rest k

/-- An HttpError of the source: a status code and a message. -/
structure HttpErr where
  status : Nat
  message : String
  deriving DecidableEq

def nameRequiredErr : HttpErr := ⟨400, "Product name is required"⟩
def qtyValidationErr : HttpErr := ⟨400, "stock_quantity must be an integer >= 0"⟩
def thresholdCreateErr : HttpErr :=
  ⟨400, "low_stock_threshold must be an integer >= 0 when provided"⟩
def thresholdUpdateErr : HttpErr := ⟨400, "low_stock_threshold must be an integer >= 0"⟩
def notFoundErr : HttpErr := ⟨404, "Product not found"⟩
def amountErr : HttpErr := ⟨400, "amount must be an integer > 0"⟩
def insufficientStockErr : HttpErr := ⟨400, "Insufficient stock"⟩

/-- The test Number.isInteger(q) and q greater or equal 0, as in the
validation of stock_quantity and low_stock_threshold. -/
def isNonNegIntB (q : ℚ) : Bool := q.den == 1 && decide (0 ≤ q)

/-- The test Number.isInteger(q) and q strictly positive, as in the
validation of the adjustment amount. -/
def isPosIntB (q : ℚ) : Bool := q.den == 1 && decide (0 < q)

/-- Validation of an optional quantity field: false when absent, the
negation of isNonNegIntB when present. -/
def badOptQty : Option ℚ → Bool
  | none => false
  | some q => !(isNonNegIntB q)

/-- The creation payload. The source accepts arbitrary extra keys beyond
the four named fields; those are the extras list, in key order. -/
structure CreatePayload where
  name : String
  description : Option String
  stock_quantity : ℚ
  low_stock_threshold : Option ℚ
  extras : List (String × JsVal)

/-- The field names handled explicitly by createProduct; extra payload keys
outside this list are spread into the document. -/
def allowedKeys : List String := ["name", "description", "stock_quantity", "low_stock_threshold"]

/-- The docData object literal of createProduct: generated id, the named
fields (description defaulting to the empty string, low_stock_threshold
only when provided), both timestamps, then the extra keys spread last, so
an extra key overrides an earlier field of the same name. -/
def buildDocData (p : CreatePayload) (genId now : String) : Doc :=
  setFields
    ([("id", JsVal.str genId),
      ("name", JsVal.str p.name),
      ("description", JsVal.str (p.description.getD "")),
      ("stock_quantity", JsVal.num p.stock_quantity)] ++
     (match p.low_stock_threshold with
      | some t => [("low_stock_threshold", JsVal.num t)]
      | none => []) ++
     [("createdAt", JsVal.str now), ("updatedAt", JsVal.str now)])
    (p.extras.filter (fun kv => !(allowedKeys.contains kv.1)))

/-- createProduct: validate name, stock_quantity and low_stock_threshold,
then store docData under the freshly generated id and return it. -/
def createProduct (s : Store) (p : CreatePayload) (genId now : String) :
    Except HttpErr Doc × Store :=
  if p.name = "" then (.error nameRequiredErr, s)
  else if !(isNonNegIntB p.stock_quantity) then (.error qtyValidationErr, s)
  else if badOptQty p.low_stock_threshold then (.error thresholdCreateErr, s)
  else
    let docData := buildDocData p genId now
    (.ok docData, setStore s genId docData)

/-- getProductById: 404 when absent, otherwise the object literal with the
snapshot id first and every stored field spread over it. -/
def getProductById (s : Store) (id : String) : Except HttpErr Doc :=
  match lookupStore s id with
  | none => .error notFoundErr
  | some d => .ok (setFields [("id", JsVal.str id)] d)

/-- The update payload: Partial of Product restricted to the four allowed
keys, each present or absent. -/
structure UpdatePayload where
  name : Option String
  description : Option String
  stock_quantity : Option ℚ
  low_stock_threshold : Option ℚ

/-- The field writes performed by updateProduct: the provided fields among
the four allowed keys, then the refreshed updatedAt. -/
def updateChanges (u : UpdatePayload) (now : String) : List (String × JsVal) :=
  (match u.name with | some n => [("name", JsVal.str n)] | none => []) ++
  (match u.description with | some x => [("description", JsVal.str x)] | none => []) ++
  (match u.stock_quantity with | some q => [("stock_quantity", JsVal.num q)] | none => []) ++
  (match u.low_stock_threshold with
   | some t => [("low_stock_threshold", JsVal.num t)] | none => []) ++
  [("updatedAt", JsVal.str now)]

/-- updateProduct: validate provided stock_quantity and
low_stock_threshold, 404 when the id is absent, otherwise merge the
provided fields plus updatedAt into the stored document and return the
re-read record. -/
def updateProduct (s : Store) (id : String) (u : UpdatePayload) (now : String) :
    Except HttpErr Doc × Store :=
  if badOptQty u.stock_quantity then (.error qtyValidationErr, s)
  else if badOptQty u.low_stock_threshold then (.error thresholdUpdateErr, s)
  else
    match lookupStore s id with
    | none => (.error notFoundErr, s)
    | some d =>
      let d2 := setFields d (updateChanges u now)
      (.ok (setFields [("id", JsVal.str id)] d2), setStore s id d2)

/-- deleteProduct: 404 when absent, otherwise remove the record. -/
def deleteProduct (s : Store) (id : String) : Except HttpErr String × Store :=
  match lookupStore s id with
  | none => (.error notFoundErr, s)
  | some _ => (.ok id, removeStore s id)

/-- The read of stock_quantity inside the transactions: the nullish
coalescing of the source maps a missing field and null to 0. A
non-numeric stock_quantity is never written by any operation. -/
def qtyOrZero (d : Doc) : ℚ :=
  match getField d "stock_quantity" with
  | some (JsVal.num q) => q
  | _ => 0

/-- increaseStock: validate the amount, then in one atomic transaction
read the current quantity, add the amount, write it back with a fresh
updatedAt, and return the id with the new quantity. -/
def increaseStock (s : Store) (id : String) (amount : ℚ) (now : String) :
    Except HttpErr (String × ℚ) × Store :=
  if !(isPosIntB amount) then (.error amountErr, s)
  else
    match lookupStore s id with
    | none => (.error notFoundErr, s)
    | some d =>
      let current := qtyOrZero d
      let updated := current + amount
      let d2 := setFields d
        [("stock_quantity", JsVal.num updated), ("updatedAt", JsVal.str now)]
      (.ok (id, updated), setStore s id d2)

/-- decreaseStock: validate the amount, then in one atomic transaction
read the current quantity, fail with Insufficient stock when it is below
the amount (aborting with no write), otherwise subtract, write back with a
fresh updatedAt and return the id with the new quantity. -/
def decreaseStock (s : Store) (id : String) (amount : ℚ) (now : String) :
    Except HttpErr (String × ℚ) × Store :=
  if !(isPosIntB amount) then (.error amountErr, s)
  else
    match lookupStore s id with
    | none => (.error notFoundErr, s)
    | some d =>
      let current := qtyOrZero d
      if current < amount then (.error insufficientStockErr, s)
      else
        let updated := current - amount
        let d2 := setFields d
          [("stock_quantity", JsVal.num updated), ("updatedAt", JsVal.str now)]
        (.ok (id, updated), setStore s id d2)

/-- The Firestore where filter low_stock_threshold != null: the field is
present and its value is not null. -/
def hasThresholdField (d : Doc) : Bool :=
  match getField d "low_stock_threshold" with
  | some JsVal.nullV => false
  | some _ => true
  | none => false

/-- listLowStock: query the documents whose low_stock_threshold is present
and not null, then keep in memory those where both low_stock_threshold and
stock_quantity are numbers and the quantity is strictly below the
threshold, each returned as the object literal with the snapshot id. -/
def listLowStock (s : Store) : List Doc :=
  (s.filter (fun kd => hasThresholdField kd.2)).filterMap (fun kd =>
    match getField kd.2 "low_stock_threshold", getField kd.2 "stock_quantity" with
    | some (JsVal.num t), some (JsVal.num q) =>
      if q < t then some (setFields [("id", JsVal.str kd.1)] kd.2) else none
    | _, _ => none)

/-- Modelled from the spec: ListLowStock returns every record where
low_stock_threshold is present and stock_quantity is strictly below it,
the fields being numbers per the spec data model. Stated as a second
definition, to be compared with listLowStock. -/
def specLowStock (s : Store) : List Doc :=
  (s.filter (fun kd =>
    match getField kd.2 "low_stock_threshold", getField kd.2 "stock_quantity" with
    | some (JsVal.num t), some (JsVal.num q) => decide (q < t)
    | _, _ => false)).map (fun kd => setFields [("id", JsVal.str kd.1)] kd.2)

/-- One mutating call against the service, with its nondeterministic
inputs (the generated id, the timestamp) as parameters. -/
inductive Op where
  | createOp (p : CreatePayload) (genId now : String)
  | updateOp (id : String) (u : UpdatePayload) (now : String)
  | deleteOp (id : String)
  | increaseOp (id : String) (amount : ℚ) (now : String)
  | decreaseOp (id : String) (amount : ℚ) (now : String)

/-- The store after one call (unchanged when the call fails). -/
def applyOp (s : Store) : Op → Store
  | .createOp p genId now => (createProduct s p genId now).2
  | .updateOp id u now => (updateProduct s id u now).2
  | .deleteOp id => (deleteProduct s id).2
  | .increaseOp id amount now => (increaseStock s id amount now).2
  | .decreaseOp id amount now => (decreaseStock s id amount now).2

/-- The stores reachable from the empty collection through service calls. -/
inductive Reachable : Store → Prop where
  | empty : Reachable []
  | step (s : Store) (op : Op) : Reachable s → Reachable (applyOp s op)

/-- The invariant on one document: a numeric stock_quantity is never
negative. -/
def DocOK (d : Doc) : Prop :=
  ∀ q : ℚ, getField d "stock_quantity" = some (JsVal.num q) → 0 ≤ q

/-- The invariant on the store: every stored document satisfies DocOK. -/
def StoreWF (s : Store) : Prop := ∀ kd ∈ s, DocOK kd.2

/-! ### Basic lemmas about documents and the store -/

theorem getField_setField_self (d : Doc) (k : String) (v : JsVal) :
    getField (setField d k v) k = some v := by
  induction d with
  | nil => simp [setField, getField]
  | cons hd tl ih =>
    by_cases h : hd.1 = k
    · simp [setField, h, getField]
    · simp [setField, h, getField, ih]

theorem getField_setField_ne (d : Doc) (k k' : String) (v : JsVal) (h : k ≠ k') :
    getField (setField d k v) k' = getField d k' := by
  induction d with
  | nil => simp [setField, getField, h]
  | cons hd tl ih =>
    by_cases hk : hd.1 = k
    · simp [setField, hk, getField, h]
    · by_cases hk' : hd.1 = k'
      · simp [setField, hk, getField, hk', Ne.symm h]
      · simp [setField, hk, getField, hk', ih]

theorem setFields_cons (d : Doc) (c : String × JsVal) (cs : List (String × JsVal)) :
    setFields d (c :: cs) = setFields (setField d c.1 c.2) cs := rfl

theorem setFields_append (d : Doc) (xs ys : List (String × JsVal)) :
    setFields d (xs ++ ys) = setFields (setFields d xs) ys := by
  simp [setFields, List.foldl_append]

theorem getField_setFields_frame (d : Doc) (cs : List (String × JsVal)) (k : String)
    (h : k ∉ cs.map Prod.fst) :
    getField (setFields d cs) k = getField d k := by
  induction cs generalizing d with
  | nil => rfl
  | cons c rest ih =>
    rw [setFields_cons, ih _ (fun hm => h (List.mem_cons_of_mem _ hm)),
      getField_setField_ne]
    intro he
    exact h (by simp [he])

theorem getField_setFields_of_mem (d : Doc) (cs : List (String × JsVal))
    (k : String) (v : JsVal) (hnd : (cs.map Prod.fst).Nodup) (hm : (k, v) ∈ cs) :
    getField (setFields d cs) k = some v := by
  induction cs generalizing d with
  | nil => cases hm
  | cons c rest ih =>
    rcases List.mem_cons.mp hm with he | hm'
    · rw [setFields_cons, getField_setFields_frame]
      · rw [← he, getField_setField_self]
      · rw [← he] at hnd
        exact (List.nodup_cons.mp hnd).1
    · exact (setFields_cons d c rest) ▸ ih _ (List.nodup_cons.mp hnd).2 hm'

theorem getField_setFields_or (d : Doc) (cs : List (String × JsVal)) (k : String) :
    getField (setFields d cs) k = getField d k ∨
      ∃ v, (k, v) ∈ cs ∧ getField (setFields d cs) k = some v := by
  induction cs generalizing d with
  | nil => left; rfl
  | cons c rest ih =>
    rw [setFields_cons]
    rcases ih (setField d c.1 c.2) with h | ⟨v, hv, he⟩
    · by_cases hk : c.1 = k
      · right
        subst hk
        refine ⟨c.2, List.mem_cons_self _ _, ?_⟩
        rw [h, getField_setField_self]
      · left
        rw [h, getField_setField_ne _ _ _ _ hk]
    · right
      exact ⟨v, List.mem_cons_of_mem _ hv, he⟩

theorem lookupStore_setStore_self (s : Store) (id : String) (d : Doc) :
    lookupStore (setStore s id d) id = some d := by
  induction s with
  | nil => simp [setStore, lookupStore]
  | cons hd tl ih =>
    by_cases h : hd.1 = id
    · simp [setStore, h, lookupStore]
    · simp [setStore, h, lookupStore, ih]

theorem lookupStore_setStore_ne (s : Store) (id id' : String) (d : Doc)
    (h : id ≠ id') :
    lookupStore (setStore s id d) id' = lookupStore s id' := by
  induction s with
  | nil => simp [setStore, lookupStore, h]
  | cons hd tl ih =>
    by_cases hk : hd.1 = id
    · simp [setStore, hk, lookupStore, h]
    · by_cases hk' : hd.1 = id'
      · simp [setStore, hk, lookupStore, hk', Ne.symm h]
      · simp [setStore, hk, lookupStore, hk', ih]

theorem lookupStore_mem (s : Store) (id : String) (d : Doc)
    (h : lookupStore s id = some d) : (id, d) ∈ s := by
  induction s with
  | nil => cases h
  | cons hd tl ih =>
    obtain ⟨k, v⟩ := hd
    by_cases hk : k = id
    · rw [lookupStore, if_pos hk] at h
      cases h
      subst hk
      exact List.mem_cons_self _ _
    · rw [lookupStore, if_neg hk] at h
      exact List.mem_cons_of_mem _ (ih h)

theorem mem_setStore (s : Store) (id : String) (d : Doc) :
    ∀ kd ∈ setStore s id d, kd = (id, d) ∨ kd ∈ s := by
  induction s with
  | nil =>
    intro kd h
    simp [setStore] at h
    left
    exact h
  | cons hd tl ih =>
    intro kd h
    by_cases hk : hd.1 = id
    · rw [setStore, if_pos hk] at h
      rcases List.mem_cons.mp h with he | hm
      · left; exact he
      · right; exact List.mem_cons_of_mem _ hm
    · rw [setStore, if_neg hk] at h
      rcases List.mem_cons.mp h with he | hm
      · right; exact he ▸ List.mem_cons_self _ _
      · rcases ih kd hm with h1 | h2
        · left; exact h1
        · right; exact List.mem_cons_of_mem _ h2

theorem mem_removeStore (s : Store) (id : String) :
    ∀ kd ∈ removeStore s id, kd ∈ s := by
  induction s with
  | nil => intro kd h; cases h
  | cons hd tl ih =>
    intro kd h
    by_cases hk : hd.1 = id
    · rw [removeStore, if_pos hk] at h
      exact List.mem_cons_of_mem _ h
    · rw [removeStore, if_neg hk] at h
      rcases List.mem_cons.mp h with he | hm
      · exact he ▸ List.mem_cons_self _ _
      · exact List.mem_cons_of_mem _ (ih kd hm)

theorem isNonNegIntB_iff (q : ℚ) : isNonNegIntB q = true ↔ q.den = 1 ∧ 0 ≤ q := by
  simp [isNonNegIntB]

theorem isPosIntB_iff (q : ℚ) : isPosIntB q = true ↔ q.den = 1 ∧ 0 < q := by
  simp [isPosIntB]

/-! ### Evaluation lemmas for the stock adjustment transactions -/

theorem qtyOrZero_num (d : Doc) (q : ℚ)
    (hq : getField d "stock_quantity" = some (JsVal.num q)) : qtyOrZero d = q := by
  rw [qtyOrZero, hq]

theorem increaseStock_ok_eq (s : Store) (id : String) (d : Doc) (q amount : ℚ)
    (now : String)
    (hd : lookupStore s id = some d) (hcur : qtyOrZero d = q)
    (hint : amount.den = 1) (hpos : 0 < amount) :
    increaseStock s id amount now = (.ok (id, q + amount),
      setStore s id (setFields d
        [("stock_quantity", JsVal.num (q + amount)), ("updatedAt", JsVal.str now)])) := by
  have hb : isPosIntB amount = true := (isPosIntB_iff amount).mpr ⟨hint, hpos⟩
  simp [increaseStock, hb, hd, hcur]

theorem decreaseStock_ok_eq (s : Store) (id : String) (d : Doc) (q amount : ℚ)
    (now : String)
    (hd : lookupStore s id = some d) (hcur : qtyOrZero d = q)
    (hint : amount.den = 1) (hpos : 0 < amount) (hle : amount ≤ q) :
    decreaseStock s id amount now = (.ok (id, q - amount),
      setStore s id (setFields d
        [("stock_quantity", JsVal.num (q - amount)), ("updatedAt", JsVal.str now)])) := by
  have hb : isPosIntB amount = true := (isPosIntB_iff amount).mpr ⟨hint, hpos⟩
  simp [decreaseStock, hb, hd, hcur, not_lt.mpr hle]

theorem decreaseStock_insufficient_eq (s : Store) (id : String) (d : Doc)
    (q amount : ℚ) (now : String)
    (hd : lookupStore s id = some d) (hcur : qtyOrZero d = q)
    (hint : amount.den = 1) (hpos : 0 < amount) (hlt : q < amount) :
    decreaseStock s id amount now = (.error insufficientStockErr, s) := by
  have hb : isPosIntB amount = true := (isPosIntB_iff amount).mpr ⟨hint, hpos⟩
  simp [decreaseStock, hb, hd, hcur, hlt]

theorem getField_two_writes_qty (d : Doc) (v w : JsVal) :
    getField (setFields d [("stock_quantity", v), ("updatedAt", w)])
      "stock_quantity" = some v := by
  show getField (setField (setField d "stock_quantity" v) "updatedAt" w)
    "stock_quantity" = some v
  rw [getField_setField_ne _ _ _ _ (by decide), getField_setField_self]

theorem getField_two_writes_upd (d : Doc) (v w : JsVal) :
    getField (setFields d [("stock_quantity", v), ("updatedAt", w)])
      "updatedAt" = some w :=
  getField_setField_self _ _ _

/-! ### Preservation of the non-negative stock invariant -/

theorem btrue_of_not_bang {b : Bool} (h : ¬((!b) = true)) : b = true := by
  cases b <;> simp_all

theorem storeWF_setStore (s : Store) (id : String) (d : Doc)
    (hs : StoreWF s) (hd : DocOK d) : StoreWF (setStore s id d) := by
  intro kd hkd
  rcases mem_setStore s id d kd hkd with he | hm
  · rw [he]
    exact hd
  · exact hs kd hm

theorem storeWF_removeStore (s : Store) (id : String) (hs : StoreWF s) :
    StoreWF (removeStore s id) :=
  fun kd h => hs kd (mem_removeStore s id kd h)

theorem docOK_of_lookup (s : Store) (id : String) (d : Doc) (hs : StoreWF s)
    (h : lookupStore s id = some d) : DocOK d :=
  hs (id, d) (lookupStore_mem s id d h)

theorem qtyOrZero_nonneg (d : Doc) (hd : DocOK d) : 0 ≤ qtyOrZero d := by
  cases hg : getField d "stock_quantity" with
  | none => rw [qtyOrZero, hg]
  | some v =>
    cases v with
    | num q => rw [qtyOrZero_num d q hg]; exact hd q hg
    | str a => rw [qtyOrZero, hg]
    | nullV => rw [qtyOrZero, hg]

theorem docOK_two_writes (d : Doc) (q : ℚ) (hq : 0 ≤ q) (w : JsVal) :
    DocOK (setFields d [("stock_quantity", JsVal.num q), ("updatedAt", w)]) := by
  intro q' hq'
  rw [getField_two_writes_qty] at hq'
  simp only [Option.some.injEq, JsVal.num.injEq] at hq'
  rw [← hq']
  exact hq

theorem getField_buildDocData_qty (p : CreatePayload) (genId now : String) :
    getField (buildDocData p genId now) "stock_quantity" =
      some (JsVal.num p.stock_quantity) := by
  rw [buildDocData, getField_setFields_frame]
  · cases p.low_stock_threshold <;> rfl
  · intro hmem
    rcases List.mem_map.mp hmem with ⟨kv, hkv, hfst⟩
    have hp := List.of_mem_filter hkv
    rw [hfst] at hp
    exact absurd hp (by decide)

theorem createProduct_wf (s : Store) (p : CreatePayload) (genId now : String)
    (hs : StoreWF s) : StoreWF (createProduct s p genId now).2 := by
  unfold createProduct
  split_ifs with h1 h2 h3
  · exact hs
  · exact hs
  · exact hs
  · show StoreWF (setStore s genId (buildDocData p genId now))
    apply storeWF_setStore _ _ _ hs
    intro q hq
    rw [getField_buildDocData_qty] at hq
    simp only [Option.some.injEq, JsVal.num.injEq] at hq
    rw [← hq]
    exact ((isNonNegIntB_iff _).mp (btrue_of_not_bang h2)).2

theorem mem_updateChanges_qty (u : UpdatePayload) (now : String) (v : JsVal)
    (h : ("stock_quantity", v) ∈ updateChanges u now) :
    ∃ qv, u.stock_quantity = some qv ∧ v = JsVal.num qv := by
  rcases u with ⟨n, ds, sq, th⟩
  cases n <;> cases ds <;> cases sq <;> cases th <;> simp_all [updateChanges]

theorem updateProduct_wf (s : Store) (id : String) (u : UpdatePayload)
    (now : String) (hs : StoreWF s) : StoreWF (updateProduct s id u now).2 := by
  unfold updateProduct
  split_ifs with h1 h2
  · exact hs
  · exact hs
  · cases hl : lookupStore s id with
    | none => exact hs
    | some d =>
      show StoreWF (setStore s id (setFields d (updateChanges u now)))
      apply storeWF_setStore _ _ _ hs
      intro q hq
      rcases getField_setFields_or d (updateChanges u now) "stock_quantity" with
        hold | ⟨v, hv, he⟩
      · rw [hold] at hq
        exact docOK_of_lookup s id d hs hl q hq
      · rcases mem_updateChanges_qty u now v hv with ⟨qv, hqv, hvv⟩
        rw [he, hvv] at hq
        simp only [Option.some.injEq, JsVal.num.injEq] at hq
        rw [← hq]
        have hb : badOptQty u.stock_quantity = false := by
          rw [← Bool.not_eq_true]
          exact h1
        rw [hqv] at hb
        have : isNonNegIntB qv = true := by
          simpa [badOptQty] using hb
        exact ((isNonNegIntB_iff _).mp this).2

theorem deleteProduct_wf (s : Store) (id : String) (hs : StoreWF s) :
    StoreWF (deleteProduct s id).2 := by
  unfold deleteProduct
  cases hl : lookupStore s id with
  | none => exact hs
  | some d => exact storeWF_removeStore s id hs

theorem increaseStock_wf (s : Store) (id : String) (amount : ℚ) (now : String)
    (hs : StoreWF s) : StoreWF (increaseStock s id amount now).2 := by
  unfold increaseStock
  split_ifs with h1
  · exact hs
  · cases hl : lookupStore s id with
    | none => exact hs
    | some d =>
      show StoreWF (setStore s id (setFields d
        [("stock_quantity", JsVal.num (qtyOrZero d + amount)),
         ("updatedAt", JsVal.str now)]))
      apply storeWF_setStore _ _ _ hs
      apply docOK_two_writes
      have hpos := ((isPosIntB_iff _).mp (btrue_of_not_bang h1)).2
      have hnn := qtyOrZero_nonneg d (docOK_of_lookup s id d hs hl)
      positivity

theorem decreaseStock_wf (s : Store) (id : String) (amount : ℚ) (now : String)
    (hs : StoreWF s) : StoreWF (decreaseStock s id amount now).2 := by
  unfold decreaseStock
  split_ifs with h1
  · exact hs
  · cases hl : lookupStore s id with
    | none => exact hs
    | some d =>
      by_cases hc : qtyOrZero d < amount
      · simp only [hc, if_true]
        exact hs
      · simp only [hc, if_false]
        show StoreWF (setStore s id (setFields d
          [("stock_quantity", JsVal.num (qtyOrZero d - amount)),
           ("updatedAt", JsVal.str now)]))
        apply storeWF_setStore _ _ _ hs
        apply docOK_two_writes
        have := not_lt.mp hc
        linarith

theorem applyOp_wf (s : Store) (op : Op) (hs : StoreWF s) :
    StoreWF (applyOp s op) := by
  cases op with
  | createOp p genId now => exact createProduct_wf s p genId now hs
  | updateOp id u now => exact updateProduct_wf s id u now hs
  | deleteOp id => exact deleteProduct_wf s id hs
  | increaseOp id amount now => exact increaseStock_wf s id amount now hs
  | decreaseOp id amount now => exact decreaseStock_wf s id amount now hs

/-! ### Evaluation lemmas for create and update -/

theorem createProduct_ok_eq (s : Store) (p : CreatePayload) (genId now : String)
    (hname : p.name ≠ "") (hq : isNonNegIntB p.stock_quantity = true)
    (hth : badOptQty p.low_stock_threshold = false) :
    createProduct s p genId now =
      (.ok (buildDocData p genId now),
       setStore s genId (buildDocData p genId now)) := by
  simp [createProduct, hname, hq, hth]

theorem badOptQty_false_of_valid (o : Option ℚ)
    (h : ∀ q, o = some q → q.den = 1 ∧ 0 ≤ q) : badOptQty o = false := by
  cases hc : o with
  | none => rfl
  | some q => simp [badOptQty, (isNonNegIntB_iff q).mpr (h q hc)]

theorem updateChanges_keys_nodup (u : UpdatePayload) (now : String) :
    ((updateChanges u now).map Prod.fst).Nodup := by
  rcases u with ⟨n, ds, sq, th⟩
  cases n <;> cases ds <;> cases sq <;> cases th <;> simp [updateChanges]

/-! ### Claim theorems -/

/-- C2: on every store reachable from the empty collection through the
service operations, every stored product has a non-negative
stock_quantity, before and after each operation: Create and Update only
admit a validated non-negative integer quantity, increase adds a positive
amount to a non-negative value, and decrease refuses any adjustment that
would go negative. -/
theorem reachable_stock_nonneg (s : Store) (h : Reachable s) : StoreWF s := by
  induction h with
  | empty => intro kd hkd; cases hkd
  | step s2 op h2 ih => exact applyOp_wf s2 op ih

/-- Witness for C2 on the store reached by one successful create. -/
theorem reachable_stock_nonneg_witness :
    StoreWF (applyOp []
      (Op.createOp ⟨"Widget", none, 10, some 5, []⟩ "g1" "t0")) :=
  reachable_stock_nonneg _ (Reachable.step [] _ Reachable.empty)

/-- C1: when the stored stock_quantity is strictly below a valid positive
integer amount, decreaseStock fails with Insufficient stock and the store,
hence the record with its updatedAt, is left completely unchanged. -/
theorem decrease_insufficient_unchanged (s : Store) (id : String) (d : Doc)
    (q amount : ℚ) (now : String)
    (hd : lookupStore s id = some d)
    (hq : getField d "stock_quantity" = some (JsVal.num q))
    (hint : amount.den = 1) (hpos : 0 < amount) (hlt : q < amount) :
    decreaseStock s id amount now = (.error insufficientStockErr, s) :=
  decreaseStock_insufficient_eq s id d q amount now hd (qtyOrZero_num d q hq)
    hint hpos hlt

/-- Witness for C1 at a concrete record with quantity 2 and amount 3. -/
theorem decrease_insufficient_unchanged_witness :
    decreaseStock [("p1", [("stock_quantity", JsVal.num 2)])] "p1" 3 "t1" =
      (.error insufficientStockErr, [("p1", [("stock_quantity", JsVal.num 2)])]) :=
  decrease_insufficient_unchanged _ "p1" _ 2 3 "t1" rfl rfl (by decide) (by decide)
    (by decide)

/-- C3: for an existing record with numeric quantity q and a valid positive
integer amount, increaseStock succeeds, stores q plus the amount with a
refreshed updatedAt, and returns exactly the id with the new quantity;
under the precondition amount at most q, decreaseStock does the same with
q minus the amount. -/
theorem adjust_success (s : Store) (id : String) (d : Doc) (q amount : ℚ)
    (now : String)
    (hd : lookupStore s id = some d)
    (hq : getField d "stock_quantity" = some (JsVal.num q))
    (hint : amount.den = 1) (hpos : 0 < amount) :
    (∃ d2, increaseStock s id amount now = (.ok (id, q + amount), setStore s id d2) ∧
      getField d2 "stock_quantity" = some (JsVal.num (q + amount)) ∧
      getField d2 "updatedAt" = some (JsVal.str now)) ∧
    (amount ≤ q →
      ∃ d2, decreaseStock s id amount now = (.ok (id, q - amount), setStore s id d2) ∧
        getField d2 "stock_quantity" = some (JsVal.num (q - amount)) ∧
        getField d2 "updatedAt" = some (JsVal.str now)) := by
  have hcur : qtyOrZero d = q := qtyOrZero_num d q hq
  constructor
  · exact ⟨_, increaseStock_ok_eq s id d q amount now hd hcur hint hpos,
      getField_two_writes_qty d _ _, getField_two_writes_upd d _ _⟩
  · intro hle
    exact ⟨_, decreaseStock_ok_eq s id d q amount now hd hcur hint hpos hle,
      getField_two_writes_qty d _ _, getField_two_writes_upd d _ _⟩

/-- Witness for C3 at a concrete record with quantity 5 and amount 3. -/
theorem adjust_success_witness :
    (∃ d2, increaseStock [("p1", [("stock_quantity", JsVal.num 5)])] "p1" 3 "t1" =
        (.ok ("p1", (5:ℚ) + 3), setStore [("p1", [("stock_quantity", JsVal.num 5)])] "p1" d2) ∧
      getField d2 "stock_quantity" = some (JsVal.num ((5:ℚ) + 3)) ∧
      getField d2 "updatedAt" = some (JsVal.str "t1")) ∧
    ((3:ℚ) ≤ 5 →
      ∃ d2, decreaseStock [("p1", [("stock_quantity", JsVal.num 5)])] "p1" 3 "t1" =
          (.ok ("p1", (5:ℚ) - 3), setStore [("p1", [("stock_quantity", JsVal.num 5)])] "p1" d2) ∧
        getField d2 "stock_quantity" = some (JsVal.num ((5:ℚ) - 3)) ∧
        getField d2 "updatedAt" = some (JsVal.str "t1")) :=
  adjust_success _ "p1" _ 5 3 "t1" rfl rfl (by decide) (by decide)

/-- C4: when the amount is not a strictly positive integer, increaseStock
and decreaseStock fail with the amount validation error on every store and
return it unchanged, so the check precedes any store access. -/
theorem adjust_amount_validation (s : Store) (id : String) (amount : ℚ)
    (now : String) (h : ¬(amount.den = 1 ∧ 0 < amount)) :
    increaseStock s id amount now = (.error amountErr, s) ∧
    decreaseStock s id amount now = (.error amountErr, s) := by
  have hb : isPosIntB amount = false := by
    rw [← Bool.not_eq_true, isPosIntB_iff]
    exact h
  constructor
  · simp [increaseStock, hb]
  · simp [decreaseStock, hb]

/-- Witness for C4 at the non-positive amount zero. -/
theorem adjust_amount_validation_witness :
    increaseStock [] "p1" 0 "t1" = (.error amountErr, []) ∧
    decreaseStock [] "p1" 0 "t1" = (.error amountErr, []) :=
  adjust_amount_validation [] "p1" 0 "t1" (by decide)

/-- C9: on a record whose stock_quantity field is missing (or null, which
the nullish coalescing also maps to 0), increaseStock stores and returns
the amount itself, and decreaseStock fails with Insufficient stock leaving
the store unchanged. -/
theorem missing_qty_as_zero (s : Store) (id : String) (d : Doc) (amount : ℚ)
    (now : String)
    (hd : lookupStore s id = some d)
    (hmiss : getField d "stock_quantity" = none ∨
      getField d "stock_quantity" = some JsVal.nullV)
    (hint : amount.den = 1) (hpos : 0 < amount) :
    (∃ d2, increaseStock s id amount now = (.ok (id, amount), setStore s id d2) ∧
      getField d2 "stock_quantity" = some (JsVal.num amount)) ∧
    decreaseStock s id amount now = (.error insufficientStockErr, s) := by
  have hcur : qtyOrZero d = 0 := by
    rcases hmiss with h | h <;> rw [qtyOrZero, h]
  constructor
  · refine ⟨setFields d [("stock_quantity", JsVal.num ((0:ℚ) + amount)),
      ("updatedAt", JsVal.str now)], ?_, ?_⟩
    · rw [increaseStock_ok_eq s id d 0 amount now hd hcur hint hpos, zero_add]
    · rw [getField_two_writes_qty d _ _, zero_add]
  · exact decreaseStock_insufficient_eq s id d 0 amount now hd hcur hint hpos hpos

/-- C5: listLowStock agrees with the spec filter on every store: exactly
the records whose low_stock_threshold is present with the quantity
strictly below it are returned, so a record at its threshold is excluded
and a record without a threshold never appears, whatever its quantity. -/
theorem listLowStock_eq_spec (s : Store) : listLowStock s = specLowStock s := by
  induction s with
  | nil => rfl
  | cons hd tl ih =>
    simp only [listLowStock, specLowStock] at ih ⊢
    cases hth : getField hd.2 "low_stock_threshold" with
    | none =>
      simpa [List.filter_cons, hasThresholdField, hth] using ih
    | some v =>
      cases v with
      | nullV =>
        simpa [List.filter_cons, hasThresholdField, hth] using ih
      | str a =>
        simpa [List.filter_cons, List.filterMap_cons, hasThresholdField, hth]
          using ih
      | num t =>
        cases hq : getField hd.2 "stock_quantity" with
        | none =>
          simpa [List.filter_cons, List.filterMap_cons, hasThresholdField, hth, hq]
            using ih
        | some w =>
          cases w with
          | nullV =>
            simpa [List.filter_cons, List.filterMap_cons, hasThresholdField, hth, hq]
              using ih
          | str a =>
            simpa [List.filter_cons, List.filterMap_cons, hasThresholdField, hth, hq]
              using ih
          | num q =>
            by_cases hlt : q < t
            · simpa [List.filter_cons, List.filterMap_cons, hasThresholdField,
                hth, hq, hlt] using ih
            · simpa [List.filter_cons, List.filterMap_cons, hasThresholdField,
                hth, hq, hlt] using ih

/-- C6: from a record with quantity 5, the two decrease calls of amount 4,
serialized by the per-key transaction, give exactly one success with new
quantity 1 and one Insufficient stock failure, and the final stored
quantity is 1: never negative and never the double decrement. -/
theorem two_decreases_serialize :
    (decreaseStock [("p1", [("stock_quantity", JsVal.num 5)])] "p1" 4 "t1").1 =
      .ok ("p1", 1) ∧
    (decreaseStock
        (decreaseStock [("p1", [("stock_quantity", JsVal.num 5)])] "p1" 4 "t1").2
        "p1" 4 "t2").1 = .error insufficientStockErr ∧
    (∃ d, lookupStore
        (decreaseStock
          (decreaseStock [("p1", [("stock_quantity", JsVal.num 5)])] "p1" 4 "t1").2
          "p1" 4 "t2").2 "p1" = some d ∧
      getField d "stock_quantity" = some (JsVal.num 1)) := by
  have h54 : (5:ℚ) - 4 = 1 := by norm_num
  have h1 := decreaseStock_ok_eq [("p1", [("stock_quantity", JsVal.num 5)])]
    "p1" [("stock_quantity", JsVal.num 5)] 5 4 "t1" rfl rfl (by decide)
    (by norm_num) (by norm_num)
  rw [h54] at h1
  have hd2 : getField (setFields [("stock_quantity", JsVal.num 5)]
      [("stock_quantity", JsVal.num 1), ("updatedAt", JsVal.str "t1")])
      "stock_quantity" = some (JsVal.num 1) :=
    getField_two_writes_qty _ _ _
  have hlook : lookupStore (setStore [("p1", [("stock_quantity", JsVal.num 5)])]
      "p1" (setFields [("stock_quantity", JsVal.num 5)]
        [("stock_quantity", JsVal.num 1), ("updatedAt", JsVal.str "t1")])) "p1" =
      some (setFields [("stock_quantity", JsVal.num 5)]
        [("stock_quantity", JsVal.num 1), ("updatedAt", JsVal.str "t1")]) :=
    lookupStore_setStore_self _ _ _
  have h2 := decreaseStock_insufficient_eq _ "p1" _ 1 4 "t2" hlook
    (qtyOrZero_num _ _ hd2) (by decide) (by norm_num) (by norm_num)
  refine ⟨?_, ?_, ?_⟩
  · rw [h1]
  · rw [h1, h2]
  · rw [h1, h2]
    exact ⟨_, hlook, hd2⟩

/-- C7: a valid creation payload, created and then read back through
getProductById on the returned id, yields a record whose name,
description, stock_quantity and low_stock_threshold equal the input, the
description defaulting to the empty string and the threshold absent when
not provided, with the id and both timestamps populated. -/
theorem create_get_roundtrip (s : Store) (p : CreatePayload) (genId now : String)
    (hname : p.name ≠ "")
    (hq : p.stock_quantity.den = 1 ∧ 0 ≤ p.stock_quantity)
    (hth : ∀ t, p.low_stock_threshold = some t → t.den = 1 ∧ 0 ≤ t)
    (hex : p.extras = []) :
    ∃ doc s2 r, createProduct s p genId now = (.ok doc, s2) ∧
      getProductById s2 genId = .ok r ∧
      getField r "id" = some (JsVal.str genId) ∧
      getField r "name" = some (JsVal.str p.name) ∧
      getField r "description" = some (JsVal.str (p.description.getD "")) ∧
      getField r "stock_quantity" = some (JsVal.num p.stock_quantity) ∧
      getField r "low_stock_threshold" = Option.map JsVal.num p.low_stock_threshold ∧
      getField r "createdAt" = some (JsVal.str now) ∧
      getField r "updatedAt" = some (JsVal.str now) := by
  have hqB : isNonNegIntB p.stock_quantity = true := (isNonNegIntB_iff _).mpr hq
  have hthB : badOptQty p.low_stock_threshold = false :=
    badOptQty_false_of_valid _ hth
  refine ⟨buildDocData p genId now, setStore s genId (buildDocData p genId now),
    setFields [("id", JsVal.str genId)] (buildDocData p genId now),
    createProduct_ok_eq s p genId now hname hqB hthB, ?_, ?_, ?_, ?_, ?_, ?_, ?_, ?_⟩
  · unfold getProductById
    rw [lookupStore_setStore_self]
  all_goals simp only [buildDocData, hex]
  all_goals cases hthc : p.low_stock_threshold <;> rfl

/-- Witness for C7 at a concrete payload with a threshold and no
description. -/
theorem create_get_roundtrip_witness :
    ∃ doc s2 r,
      createProduct [] ⟨"Widget", none, 10, some 5, []⟩ "g1" "t0" = (.ok doc, s2) ∧
      getProductById s2 "g1" = .ok r ∧
      getField r "id" = some (JsVal.str "g1") ∧
      getField r "name" = some (JsVal.str "Widget") ∧
      getField r "description" = some (JsVal.str ((none : Option String).getD "")) ∧
      getField r "stock_quantity" = some (JsVal.num 10) ∧
      getField r "low_stock_threshold" = Option.map JsVal.num (some 5) ∧
      getField r "createdAt" = some (JsVal.str "t0") ∧
      getField r "updatedAt" = some (JsVal.str "t0") :=
  create_get_roundtrip [] ⟨"Widget", none, 10, some 5, []⟩ "g1" "t0"
    (by decide) (by decide)
    (fun t ht => by injection ht with h; subst h; decide) rfl

/-- C8: a provided stock_quantity or low_stock_threshold that is not a
non-negative integer is rejected with the same validation predicate and
the same stock_quantity error as Create, leaving the store unchanged;
updateProduct fails with 404 when the id is absent leaving the store
unchanged; on an existing record it writes exactly the provided fields
among the four allowed keys plus a refreshed updatedAt, and every key
outside the written ones, id and createdAt included, keeps its stored
value. -/
theorem update_only_provided_fields (s : Store) (id : String) (u : UpdatePayload)
    (now : String) :
    (∀ q, u.stock_quantity = some q → ¬(q.den = 1 ∧ 0 ≤ q) →
      updateProduct s id u now = (.error qtyValidationErr, s)) ∧
    ((∀ q, u.stock_quantity = some q → q.den = 1 ∧ 0 ≤ q) →
      ∀ t, u.low_stock_threshold = some t → ¬(t.den = 1 ∧ 0 ≤ t) →
      updateProduct s id u now = (.error thresholdUpdateErr, s)) ∧
    ((∀ q, u.stock_quantity = some q → q.den = 1 ∧ 0 ≤ q) →
     (∀ t, u.low_stock_threshold = some t → t.den = 1 ∧ 0 ≤ t) →
      (lookupStore s id = none →
        updateProduct s id u now = (.error notFoundErr, s)) ∧
      (∀ d, lookupStore s id = some d → ∃ d2,
        updateProduct s id u now =
          (.ok (setFields [("id", JsVal.str id)] d2), setStore s id d2) ∧
        (∀ n, u.name = some n → getField d2 "name" = some (JsVal.str n)) ∧
        (∀ x, u.description = some x →
          getField d2 "description" = some (JsVal.str x)) ∧
        (∀ q, u.stock_quantity = some q →
          getField d2 "stock_quantity" = some (JsVal.num q)) ∧
        (∀ t, u.low_stock_threshold = some t →
          getField d2 "low_stock_threshold" = some (JsVal.num t)) ∧
        getField d2 "updatedAt" = some (JsVal.str now) ∧
        (∀ k, k ∉ (updateChanges u now).map Prod.fst →
          getField d2 k = getField d k))) := by
  refine ⟨?_, ?_, ?_⟩
  · intro q hq2 hbad
    have hb : badOptQty u.stock_quantity = true := by
      rw [hq2]
      simp only [badOptQty, Bool.not_eq_true']
      rw [← Bool.not_eq_true, isNonNegIntB_iff]
      exact hbad
    simp [updateProduct, hb]
  · intro hqv t ht2 hbad
    have hbq : badOptQty u.stock_quantity = false := badOptQty_false_of_valid _ hqv
    have hb : badOptQty u.low_stock_threshold = true := by
      rw [ht2]
      simp only [badOptQty, Bool.not_eq_true']
      rw [← Bool.not_eq_true, isNonNegIntB_iff]
      exact hbad
    simp [updateProduct, hbq, hb]
  · intro hq ht
    have hbq : badOptQty u.stock_quantity = false := badOptQty_false_of_valid _ hq
    have hbt : badOptQty u.low_stock_threshold = false := badOptQty_false_of_valid _ ht
    constructor
    · intro hl
      simp [updateProduct, hbq, hbt, hl]
    · intro d hl
      refine ⟨setFields d (updateChanges u now), ?_, ?_, ?_, ?_, ?_, ?_, ?_⟩
      · simp [updateProduct, hbq, hbt, hl]
      · intro n hn
        exact getField_setFields_of_mem _ _ _ _ (updateChanges_keys_nodup u now)
          (by simp [updateChanges, hn])
      · intro x hx
        exact getField_setFields_of_mem _ _ _ _ (updateChanges_keys_nodup u now)
          (by simp [updateChanges, hx])
      · intro q hq2
        exact getField_setFields_of_mem _ _ _ _ (updateChanges_keys_nodup u now)
          (by simp [updateChanges, hq2])
      · intro t ht2
        exact getField_setFields_of_mem _ _ _ _ (updateChanges_keys_nodup u now)
          (by simp [updateChanges, ht2])
      · exact getField_setFields_of_mem _ _ _ _ (updateChanges_keys_nodup u now)
          (by simp [updateChanges])
      · intro k hk
        exact getField_setFields_frame d _ k hk

/-- Witness for C8 at a concrete store and a partial update providing name
and stock_quantity only. -/
theorem update_only_provided_fields_witness :
    (∀ q, (some (7:ℚ) : Option ℚ) = some q → ¬(q.den = 1 ∧ 0 ≤ q) →
      updateProduct [("p1", [("name", JsVal.str "Old"), ("stock_quantity", JsVal.num 2)])]
        "p1" ⟨some "New", none, some 7, none⟩ "t2" =
        (.error qtyValidationErr,
         [("p1", [("name", JsVal.str "Old"), ("stock_quantity", JsVal.num 2)])])) ∧
    ((∀ q, (some (7:ℚ) : Option ℚ) = some q → q.den = 1 ∧ 0 ≤ q) →
      ∀ t, (none : Option ℚ) = some t → ¬(t.den = 1 ∧ 0 ≤ t) →
      updateProduct [("p1", [("name", JsVal.str "Old"), ("stock_quantity", JsVal.num 2)])]
        "p1" ⟨some "New", none, some 7, none⟩ "t2" =
        (.error thresholdUpdateErr,
         [("p1", [("name", JsVal.str "Old"), ("stock_quantity", JsVal.num 2)])])) ∧
    ((∀ q, (some (7:ℚ) : Option ℚ) = some q → q.den = 1 ∧ 0 ≤ q) →
     (∀ t, (none : Option ℚ) = some t → t.den = 1 ∧ 0 ≤ t) →
      (lookupStore [("p1", [("name", JsVal.str "Old"), ("stock_quantity", JsVal.num 2)])]
          "p1" = none →
        updateProduct [("p1", [("name", JsVal.str "Old"), ("stock_quantity", JsVal.num 2)])]
          "p1" ⟨some "New", none, some 7, none⟩ "t2" =
          (.error notFoundErr,
           [("p1", [("name", JsVal.str "Old"), ("stock_quantity", JsVal.num 2)])])) ∧
      (∀ d, lookupStore [("p1", [("name", JsVal.str "Old"), ("stock_quantity", JsVal.num 2)])]
          "p1" = some d → ∃ d2,
        updateProduct [("p1", [("name", JsVal.str "Old"), ("stock_quantity", JsVal.num 2)])]
          "p1" ⟨some "New", none, some 7, none⟩ "t2" =
          (.ok (setFields [("id", JsVal.str "p1")] d2),
           setStore [("p1", [("name", JsVal.str "Old"), ("stock_quantity", JsVal.num 2)])]
             "p1" d2) ∧
        (∀ n, (some "New" : Option String) = some n →
          getField d2 "name" = some (JsVal.str n)) ∧
        (∀ x, (none : Option String) = some x →
          getField d2 "description" = some (JsVal.str x)) ∧
        (∀ q, (some (7:ℚ) : Option ℚ) = some q →
          getField d2 "stock_quantity" = some (JsVal.num q)) ∧
        (∀ t, (none : Option ℚ) = some t →
          getField d2 "low_stock_threshold" = some (JsVal.num t)) ∧
        getField d2 "updatedAt" = some (JsVal.str "t2") ∧
        (∀ k, k ∉ (updateChanges ⟨some "New", none, some 7, none⟩ "t2").map Prod.fst →
          getField d2 k = getField d k))) :=
  update_only_provided_fields
    [("p1", [("name", JsVal.str "Old"), ("stock_quantity", JsVal.num 2)])]
    "p1" ⟨some "New", none, some 7, none⟩ "t2"

/-- C10: createProduct spreads every extra payload key outside the four
named fields into the stored document after the generated fields, so each
extra field is stored unchanged and an extra field named id, createdAt or
updatedAt overrides the generated value. -/
theorem create_extra_fields (s : Store) (p : CreatePayload) (genId now : String)
    (hname : p.name ≠ "")
    (hq : p.stock_quantity.den = 1 ∧ 0 ≤ p.stock_quantity)
    (hth : ∀ t, p.low_stock_threshold = some t → t.den = 1 ∧ 0 ≤ t)
    (hnd : (p.extras.map Prod.fst).Nodup) :
    ∃ doc, createProduct s p genId now = (.ok doc, setStore s genId doc) ∧
      ∀ k v, (k, v) ∈ p.extras → k ∉ allowedKeys → getField doc k = some v := by
  have hqB : isNonNegIntB p.stock_quantity = true := (isNonNegIntB_iff _).mpr hq
  have hthB : badOptQty p.low_stock_threshold = false :=
    badOptQty_false_of_valid _ hth
  refine ⟨buildDocData p genId now,
    createProduct_ok_eq s p genId now hname hqB hthB, ?_⟩
  intro k v hkv hk
  rw [buildDocData]
  apply getField_setFields_of_mem
  · exact hnd.sublist ((p.extras.filter_sublist
      (p := fun kv => !(allowedKeys.contains kv.1))).map _)
  · refine List.mem_filter.mpr ⟨hkv, ?_⟩
    simp only [Bool.not_eq_true']
    rw [Bool.eq_false_iff]
    intro hc
    exact hk (List.elem_iff.mp hc)

/-- Witness for C10: an extra field named id overrides the generated id in
the stored document. -/
theorem create_extra_fields_witness :
    ∃ doc, createProduct [] ⟨"Widget", none, 10, none, [("id", JsVal.str "custom")]⟩
        "g1" "t0" = (.ok doc, setStore [] "g1" doc) ∧
      ∀ k v, (k, v) ∈ [("id", JsVal.str "custom")] → k ∉ allowedKeys →
        getField doc k = some v :=
  create_extra_fields [] ⟨"Widget", none, 10, none, [("id", JsVal.str "custom")]⟩
    "g1" "t0" (by decide) (by decide) (fun t ht => by cases ht) (by decide)

/-- Witness for C9 at a concrete record without a stock_quantity field. -/
theorem missing_qty_as_zero_witness :
    (∃ d2, increaseStock [("p1", [("name", JsVal.str "W")])] "p1" 3 "t1" =
        (.ok ("p1", (3:ℚ)), setStore [("p1", [("name", JsVal.str "W")])] "p1" d2) ∧
      getField d2 "stock_quantity" = some (JsVal.num 3)) ∧
    decreaseStock [("p1", [("name", JsVal.str "W")])] "p1" 3 "t1" =
      (.error insufficientStockErr, [("p1", [("name", JsVal.str "W")])]) :=
  missing_qty_as_zero _ "p1" _ 3 "t1" rfl (Or.inl rfl) (by decide) (by decide)

end Inventory
